import Mathlib

/-!
Verification of the news-genai-solution design against its specification.

The development shallowly embeds three layers of the system:

1. the relational schema of `init-scripts/01-init.sql` (tables `articles`,
   `topics`, `article_topics`, the `unique_topic_name` constraint, the
   composite primary key, the `ON DELETE CASCADE` foreign keys, and the
   `update_article_timestamp` trigger) as a small state machine over lists
   of rows, with constraint-violating statements leaving the state
   unchanged (a failed SQL statement has no effect);

2. the per-URL upload loop of `ui/src/components/UploadPage.jsx`
   (`processNextUrl`): each URL is posted on its own, the whole body sits
   in a try/catch, and the loop always continues with the remaining URLs;

3. the ingestion pipeline and search orchestrator, whose backend source is
   not part of the repository snapshot; these are modelled from the
   specification text (sections 4.5, 4.6, 6 and 7 of the design document).
-/

namespace NewsGenAI

/-! Relational schema model, from `init-scripts/01-init.sql`. -/

/-- A row of the `articles` table (lines 4-13 of `01-init.sql`):
`id VARCHAR PRIMARY KEY, url, title, summary NULL, source NULL,
published_date NULL, created_at DEFAULT now, updated_at DEFAULT now`.
Timestamps are modelled as naturals. -/
structure ArticleRow where
  id : String
  url : String
  title : String
  summary : Option String
  source : Option String
  published_date : Option Nat
  created_at : Nat
  updated_at : Nat
  deriving DecidableEq

/-- A row of the `topics` table (lines 16-20): `id SERIAL PRIMARY KEY,
name VARCHAR NOT NULL, CONSTRAINT unique_topic_name UNIQUE (name)`. -/
structure TopicRow where
  id : Nat
  name : String
  deriving DecidableEq

/-- A row of the `article_topics` junction table (lines 23-29):
`PRIMARY KEY (article_id, topic_id)`, both columns foreign keys with
`ON DELETE CASCADE`. -/
structure ArticleTopicRow where
  article_id : String
  topic_id : Nat
  deriving DecidableEq

/-- The columns of `articles` that an INSERT or UPDATE statement supplies
explicitly; `created_at` and `updated_at` are filled by column defaults
and (for updates) by the trigger, never by the application statement. -/
structure ArticleValues where
  url : String
  title : String
  summary : Option String
  source : Option String
  published_date : Option Nat
  deriving DecidableEq

/-- The state of the relational database: the three tables, the `SERIAL`
sequence backing `topics.id`, and the current clock (the value `now()`
would return, monotone over the run). -/
structure DBState where
  articles : List ArticleRow
  topics : List TopicRow
  article_topics : List ArticleTopicRow
  nextTopicId : Nat
  now : Nat
  deriving DecidableEq

/-- The SQL statements the schema supports against these three tables. -/
inductive DBOp where
  | insertArticle (id : String) (v : ArticleValues) (t : Nat)
  | updateArticle (id : String) (v : ArticleValues) (t : Nat)
  | deleteArticle (id : String)
  | insertTopic (name : String)
  | deleteTopic (tid : Nat)
  | insertArticleTopic (aid : String) (tid : Nat)
  | deleteArticleTopic (aid : String) (tid : Nat)
  deriving DecidableEq

/-- Advance the clock: `now()` never moves backwards within a run. -/
def tick (st : DBState) (t : Nat) : Nat := max st.now t

/-- The effect of `UPDATE articles SET url, title, summary, source,
published_date WHERE id = ...` on one row, with the
`update_article_timestamp` trigger (lines 39-51 of `01-init.sql`)
installed: `BEFORE UPDATE` the row gets `updated_at = now()`, while
`created_at` is untouched by the statement. -/
def applyUpdateRow (id : String) (v : ArticleValues) (t2 : Nat) (a : ArticleRow) : ArticleRow :=
  if a.id == id then
    { a with
        url := v.url, title := v.title, summary := v.summary,
        source := v.source, published_date := v.published_date,
        updated_at := t2 }
  else a

/-- The same UPDATE on one row as it actually behaves on a database
initialized by `01-init.sql`: the `CREATE FUNCTION update_modified_column`
statement delimits its body with a lone dollar sign (lines 40 and 45),
which is not a valid dollar-quote delimiter in PostgreSQL (the delimiter
must be at least two dollar signs), so the function and hence the trigger
are never created, and an UPDATE leaves `updated_at` at its previous
value. -/
def applyUpdateRowNoTrig (id : String) (v : ArticleValues) (a : ArticleRow) : ArticleRow :=
  if a.id == id then
    { a with
        url := v.url, title := v.title, summary := v.summary,
        source := v.source, published_date := v.published_date }
  else a

/-- One SQL statement against the schema of `01-init.sql`. A statement
that violates a constraint (duplicate primary key, duplicate
`unique_topic_name`, missing foreign-key target) raises an error and
leaves the database unchanged. `updateArticle` models the file as
written, with the `update_article_timestamp` trigger (lines 39-51)
installed. Deletes cascade into `article_topics` per the
`ON DELETE CASCADE` clauses. -/
def applyOp (st : DBState) (op : DBOp) : DBState :=
  match op with
  | .insertArticle id v t =>
    let t2 := tick st t
    if st.articles.any (fun a => a.id == id) then
      { st with now := t2 }
    else
      { st with
          articles :=
            ⟨id, v.url, v.title, v.summary, v.source, v.published_date, t2, t2⟩ :: st.articles,
          now := t2 }
  | .updateArticle id v t =>
    let t2 := tick st t
    { st with
        articles := st.articles.map (applyUpdateRow id v t2),
        now := t2 }
  | .deleteArticle id =>
    { st with
        articles := st.articles.filter (fun a => !(a.id == id)),
        article_topics := st.article_topics.filter (fun r => !(r.article_id == id)) }
  | .insertTopic name =>
    if st.topics.any (fun tp => tp.name == name) then st
    else
      { st with
          topics := ⟨st.nextTopicId, name⟩ :: st.topics,
          nextTopicId := st.nextTopicId + 1 }
  | .deleteTopic tid =>
    { st with
        topics := st.topics.filter (fun tp => !(tp.id == tid)),
        article_topics := st.article_topics.filter (fun r => !(r.topic_id == tid)) }
  | .insertArticleTopic aid tid =>
    if st.article_topics.any (fun r => r.article_id == aid && r.topic_id == tid) then st
    else if !(st.articles.any (fun a => a.id == aid)) then st
    else if !(st.topics.any (fun tp => tp.id == tid)) then st
    else { st with article_topics := ⟨aid, tid⟩ :: st.article_topics }
  | .deleteArticleTopic aid tid =>
    { st with
        article_topics :=
          st.article_topics.filter (fun r => !(r.article_id == aid && r.topic_id == tid)) }

/-- The `UPDATE articles` statement as it actually behaves on a database
initialized by `01-init.sql` (no trigger installed, see
`applyUpdateRowNoTrig`). -/
def updateArticleNoTrig (st : DBState) (id : String) (v : ArticleValues) (t : Nat) : DBState :=
  let t2 := tick st t
  { st with
      articles := st.articles.map (applyUpdateRowNoTrig id v),
      now := t2 }

/-- The empty database produced by running the CREATE statements of
`01-init.sql`: no rows, the `SERIAL` sequence at 1, clock at 0. -/
def initDB : DBState := ⟨[], [], [], 1, 0⟩

/-- Run a sequence of SQL statements from the freshly initialized
database. -/
def runDB (ops : List DBOp) : DBState := ops.foldl applyOp initDB

/-- Invariant of the `unique_topic_name` constraint: no two topic rows
share a name. -/
def namesUnique (st : DBState) : Prop := (st.topics.map (fun tp => tp.name)).Nodup

/-- Invariant of the composite primary key of `article_topics`: no
duplicate (article_id, topic_id) row. -/
def assocUnique (st : DBState) : Prop := st.article_topics.Nodup

/-- Invariant of the two foreign keys of `article_topics`: every
association row references an existing article row and an existing topic
row. -/
def noOrphans (st : DBState) : Prop :=
  ∀ r ∈ st.article_topics,
    (∃ a ∈ st.articles, a.id = r.article_id) ∧ (∃ tp ∈ st.topics, tp.id = r.topic_id)

/-- Conjunction of the schema invariants maintained by every statement. -/
def dbInv (st : DBState) : Prop := namesUnique st ∧ assocUnique st ∧ noOrphans st

/-- Fixed column values used by concrete witness runs. -/
def sampleValues : ArticleValues := ⟨"http://e/a", "T", none, none, none⟩

/-- Concrete statement sequence used by the witness of the orphan-freedom
claim: insert one article, one topic, and one association row. -/
def sampleOps : List DBOp :=
  [DBOp.insertArticle "a1" sampleValues 1, DBOp.insertTopic "politics",
   DBOp.insertArticleTopic "a1" 1]

/-! Upload loop model, from `ui/src/components/UploadPage.jsx`. -/

/-- Outcome of the `fetch` of one URL in `processNextUrl`: the response
was ok with a JSON body `data` (a list of article ids), or the response
was not ok with an optional `data.detail`, or `fetch` itself threw with
an optional `error.message`. -/
inductive FetchOutcome where
  | ok (ids : List String)
  | httpError (detail : Option String)
  | networkError (msg : Option String)
  deriving DecidableEq

/-- Final per-URL status recorded by `processNextUrl`. -/
inductive UStatus where
  | success
  | error (msg : String)
  deriving DecidableEq

/-- The component state of `UploadPage` that the loop mutates. The
`uploadStatus` map is keyed by URL. -/
structure UploadState where
  processedUrls : List String
  uploadStatus : String → Option UStatus
  processedCount : Nat
  failedUrls : List String

/-- The status `processNextUrl` records for one URL, as a function of
that URL's own fetch outcome (lines 63-86 of `UploadPage.jsx`). -/
def statusFromOutcome : FetchOutcome → UStatus
  | .ok _ => .success
  | .httpError d => .error (d.getD "Failed to process article")
  | .networkError m => .error (m.getD "Network error")

/-- The state updates of one iteration of `processNextUrl` for URL `url`
with fetch outcome `out`: on ok, append the returned ids to
`processedUrls`, mark success, bump `processedCount`; on a non-ok
response or a thrown error, mark the error message and append to
`failedUrls`. -/
def applyOutcome (st : UploadState) (url : String) (out : FetchOutcome) : UploadState :=
  match out with
  | .ok ids =>
    { st with
        processedUrls := st.processedUrls ++ ids,
        uploadStatus := fun x => if x = url then some UStatus.success else st.uploadStatus x,
        processedCount := st.processedCount + 1 }
  | .httpError d =>
    { st with
        uploadStatus := fun x =>
          if x = url then some (UStatus.error (d.getD "Failed to process article"))
          else st.uploadStatus x,
        failedUrls := st.failedUrls ++ [url] }
  | .networkError m =>
    { st with
        uploadStatus := fun x =>
          if x = url then some (UStatus.error (m.getD "Network error"))
          else st.uploadStatus x,
        failedUrls := st.failedUrls ++ [url] }

/-- The driver loop of `UploadPage.jsx`: process the head URL (the whole
iteration sits in a try/catch, so every outcome is absorbed into the
per-URL status) and always continue with the remaining URLs. `f` gives
each URL's fetch outcome. -/
def processNextUrl (f : String → FetchOutcome) : UploadState → List String → UploadState
  | st, [] => st
  | st, url :: remaining => processNextUrl f (applyOutcome st url (f url)) remaining

/-- The state `handleProcessUrls` resets before starting the loop. -/
def initUpload : UploadState := ⟨[], fun _ => none, 0, []⟩

/-- Concrete outcome assignment for the batch-isolation witness: URL "a"
is unreachable (fetch throws), every other URL succeeds. -/
def sampleFetch : String → FetchOutcome :=
  fun u => if u = "a" then FetchOutcome.networkError none else FetchOutcome.ok ["id-" ++ u]

/-! Ingestion pipeline and search orchestrator. The backend services are
not part of the repository snapshot (only their SQL schema, callers and
deployment scripts are), so this layer is modelled from the
specification. -/

/-- Modelled from the spec: the result of the Content Extractor,
`{title, body_text, source}` (section 4.1). -/
structure Extracted where
  title : String
  body_text : String
  source : String
  deriving DecidableEq

/-- Modelled from the spec: the result of `analyze(body_text)`, a summary
and a topic list (section 4.2). -/
structure Analysis where
  summary : String
  topics : List String
  deriving DecidableEq

/-- Modelled from the spec: the external collaborators of the pipeline
and the search orchestrator — Content Extractor, AI Analyzer (both of
its operations) and Embedder — each a function of its input that either
returns a value or fails with that component's error (sections 4.1-4.3).
The pipeline source itself is missing from the snapshot. -/
structure Env where
  extract : String → Except String Extracted
  analyze : String → Except String Analysis
  enhance_query : String → Except String String
  embed : String → Except String (List Rat)

/-- Split a character list into the groups separated by `c`. -/
def splitOnChar (c : Char) : List Char → List (List Char)
  | [] => [[]]
  | x :: xs =>
    if x == c then [] :: splitOnChar c xs
    else
      match splitOnChar c xs with
      | [] => [[x]]
      | g :: gs => (x :: g) :: gs

/-- Join groups of characters with the separator `sep` between them. -/
def joinWith (sep : Char) : List (List Char) → List Char
  | [] => []
  | [g] => g
  | g :: gs => g ++ sep :: joinWith sep gs

/-- Split a URL at its first question mark: the part before it, and the
query string after it when one is present. -/
def splitQuery : List Char → List Char × Option (List Char)
  | [] => ([], none)
  | x :: xs =>
    if x == '?' then ([], some xs)
    else ((x :: (splitQuery xs).1), (splitQuery xs).2)

/-- Whether a query parameter is a tracking parameter: its name carries
the `utm_` marker. -/
def isTracking (p : List Char) : Bool := p.take 4 == ['u', 't', 'm', '_']

/-- Drop every trailing occurrence of `c`. -/
def dropTrailing (c : Char) (l : List Char) : List Char :=
  (l.reverse.dropWhile (fun x => x == c)).reverse

/-- Modelled from the spec: the canonicalization of a URL used as the
idempotency key for ingestion — tracking query parameters and trailing
slashes stripped (section 4.5 and glossary). -/
def canonicalize (u : String) : String :=
  let sq := splitQuery u.toList
  let kept :=
    match sq.2 with
    | none => []
    | some q => (splitOnChar '&' q).filter (fun p => !(isTracking p))
  String.mk
    (dropTrailing '/' (if kept.isEmpty then sq.1 else sq.1 ++ '?' :: joinWith '&' kept))

/-- Modelled from the spec: an Article as constructed by the Ingestion
Pipeline, identified by a stable derivation of the canonical URL
(section 3); the model uses the canonical URL itself as the stable
identifier. -/
structure Article where
  id : String
  url : String
  title : String
  summary : String
  source : String
  topics : List String
  deriving DecidableEq

/-- Modelled from the spec: an Embedding Record — article identifier,
vector, and a denormalized copy of the searchable metadata (section 3).
Vectors are modelled over the rationals. -/
structure EmbeddingRecord where
  article_id : String
  vector : List Rat
  title : String
  summary : String
  source : String
  topics : List String
  deriving DecidableEq

/-- Modelled from the spec: the two stores the pipeline writes —
relational metadata keyed by article id, and the vector index keyed by
article id (sections 3 and 4.4). -/
structure Stores where
  metadata : List Article
  vectors : List EmbeddingRecord
  deriving DecidableEq

/-- Upsert into a list keyed by `key`: replace the first entry with the
same key, or add the entry if the key is absent. -/
def upsertBy {α : Type} (key : α → String) (x : α) : List α → List α
  | [] => [x]
  | y :: ys => if key y == key x then x :: ys else y :: upsertBy key x ys

/-- Modelled from the spec: the analysis used by the pipeline — the
Analyzer's output, or empty summary and topics when the Analyzer fails
(soft failure, section 4.5). -/
def analysisOrEmpty (env : Env) (body : String) : Analysis :=
  match env.analyze body with
  | .ok a => a
  | .error _ => ⟨"", []⟩

/-- Modelled from the spec: the Article row the pipeline builds for a
URL from its extraction result and (possibly failed) analysis. -/
def mkArticle (env : Env) (url : String) (ex : Extracted) : Article :=
  ⟨canonicalize url, url, ex.title,
   (analysisOrEmpty env ex.body_text).summary, ex.source,
   (analysisOrEmpty env ex.body_text).topics⟩

/-- Modelled from the spec: the Embedding Record upserted for an article,
carrying the vector and the denormalized metadata copy. -/
def mkRecord (a : Article) (v : List Rat) : EmbeddingRecord :=
  ⟨a.id, v, a.title, a.summary, a.source, a.topics⟩

/-- Modelled from the spec: the terminal status of one URL in a batch —
it reached `stored`, or extraction failed with a reason (section 4.5;
section 7 statuses). -/
inductive UrlStatus where
  | stored (id : String)
  | extraction_failed (url : String) (reason : String)
  deriving DecidableEq

/-- Modelled from the spec: the per-URL state machine of the Ingestion
Pipeline (section 4.5). Extraction failure is fatal for the URL and
nothing is persisted. On successful extraction the article (with the
analysis, empty on Analyzer failure) is upserted into the metadata store
keyed by the canonical URL; the embedding is computed from the body text
and on success the Embedding Record is upserted into the vector index,
while an embedding failure leaves the metadata write in place. -/
def processUrl (env : Env) (st : Stores) (url : String) : UrlStatus × Stores :=
  match env.extract url with
  | .error e => (.extraction_failed url e, st)
  | .ok ex =>
    let art := mkArticle env url ex
    let st1 : Stores := ⟨upsertBy (fun a => a.id) art st.metadata, st.vectors⟩
    match env.embed ex.body_text with
    | .ok v =>
      (.stored art.id, ⟨st1.metadata, upsertBy (fun r => r.article_id) (mkRecord art v) st1.vectors⟩)
    | .error _ => (.stored art.id, st1)

/-- Modelled from the spec: batch ingestion — URLs processed one after
the other (section 5 serializes conflicting writes, and results are
reported in input order), each URL's failure captured in its own status
(section 4.5 batch contract). -/
def processBatch (env : Env) (st : Stores) : List String → List UrlStatus × Stores
  | [] => ([], st)
  | u :: us =>
    let r := processUrl env st u
    let rest := processBatch env r.2 us
    (r.1 :: rest.1, rest.2)

/-- Whether extraction succeeds for a URL — in the pipeline model this is
exactly reaching the `stored` (metadata-persisted) state. -/
def extractionOk (env : Env) (u : String) : Bool :=
  match env.extract u with
  | .ok _ => true
  | .error _ => false

/-- The terminal status of one URL, as a function of that URL alone. -/
def urlOutcome (env : Env) (u : String) : UrlStatus :=
  match env.extract u with
  | .ok _ => .stored (canonicalize u)
  | .error e => .extraction_failed u e

/-- The identifiers of the statuses that reached `stored`, in order. -/
def storedIdsOf (rs : List UrlStatus) : List String :=
  rs.filterMap (fun r =>
    match r with
    | .stored i => some i
    | .extraction_failed _ _ => none)

/-- The failed URLs with their reasons, in order. -/
def failuresOf (rs : List UrlStatus) : List (String × String) :=
  rs.filterMap (fun r =>
    match r with
    | .stored _ => none
    | .extraction_failed u m => some (u, m))

/-- Modelled from the spec: the HTTP response of a batch `store` call —
always HTTP success, carrying the identifiers of the successfully stored
articles and the structured per-URL status list (sections 6 and 7). -/
structure BatchResponse where
  status_code : Nat
  stored_ids : List String
  url_statuses : List UrlStatus
  deriving DecidableEq

/-- Modelled from the spec: the `store` endpoint — run the batch, return
HTTP 200 with the stored identifiers and the per-URL statuses; per-URL
failures are never converted into a transport-level error (section 7). -/
def storeEndpoint (env : Env) (st : Stores) (urls : List String) : BatchResponse :=
  ⟨200, storedIdsOf (processBatch env st urls).1, (processBatch env st urls).1⟩

/-- The empty pair of stores. -/
def emptyStores : Stores := ⟨[], []⟩

/-- The stores after ingesting one URL. -/
def ingest (env : Env) (st : Stores) (u : String) : Stores := (processUrl env st u).2

/-- The stores after ingesting the same URL twice into empty stores, the
two runs made under possibly different external-service behavior. -/
def ingestTwice (env1 env2 : Env) (u : String) : Stores :=
  ingest env2 (ingest env1 emptyStores u) u

/-! Search orchestrator model, from sections 4.6 and 7 of the spec. -/

/-- Modelled from the spec: a vector-index match — the stored record with
its similarity score. -/
structure Scored where
  entry : EmbeddingRecord
  score : Rat
  deriving DecidableEq

/-- Dot product of two vectors; on normalized vectors this is the cosine
similarity the spec prescribes (section 4.6, step 3). -/
def dot : List Rat → List Rat → Rat
  | a :: as, b :: bs => a * b + dot as bs
  | _, _ => 0

/-- Results ranked by similarity: a result is ordered before another when
its score is at least as large. -/
def scoreOrder (a b : Scored) : Prop := b.score ≤ a.score

instance : DecidableRel scoreOrder :=
  fun a b => inferInstanceAs (Decidable (b.score ≤ a.score))

instance : IsTotal Scored scoreOrder :=
  ⟨fun a b => le_total b.score a.score⟩

instance : IsTrans Scored scoreOrder :=
  ⟨fun _ _ _ h1 h2 => le_trans h2 h1⟩

/-- Modelled from the spec: the nearest-neighbor query of the Vector
Index — score every stored record against the query vector, rank by
similarity, return the best `limit` (section 4.6, step 3). -/
def vectorQuery (index : List EmbeddingRecord) (v : List Rat) (limit : Nat) : List Scored :=
  (List.insertionSort scoreOrder (index.map (fun e => ⟨e, dot v e.vector⟩))).take limit

/-- Modelled from the spec: `search(query_text, enhance, limit)` — when
`enhance` is set, ask the Analyzer to expand the query and fall back
silently to the original query text on failure; embed the resulting
text; rank the vector index against it (section 4.6). -/
def search (env : Env) (index : List EmbeddingRecord) (q : String) (enhance : Bool)
    (limit : Nat) : Except String (List Scored) :=
  let q2 :=
    if enhance then
      match env.enhance_query q with
      | .ok e => e
      | .error _ => q
    else q
  match env.embed q2 with
  | .error e => .error e
  | .ok v => .ok (vectorQuery index v limit)

/-- Modelled from the spec: the failure of `find_similar` when the
article was never embedded (section 4.6). -/
inductive SimError where
  | NotFoundError
  deriving DecidableEq

/-- Modelled from the spec: `find_similar(article_id, limit)` — look up
the stored vector of the article (NotFoundError when the article was
never embedded) and run the same nearest-neighbor query, excluding the
source article itself from the results (section 4.6). -/
def find_similar (index : List EmbeddingRecord) (article_id : String) (limit : Nat) :
    Except SimError (List Scored) :=
  match index.find? (fun e => e.article_id == article_id) with
  | none => .error .NotFoundError
  | some src =>
    .ok (vectorQuery (index.filter (fun e => !(e.article_id == article_id))) src.vector limit)

/-- The result list of a similarity query, empty on failure. -/
def okResults (r : Except SimError (List Scored)) : List Scored :=
  match r with
  | .ok l => l
  | .error _ => []

/-- Concrete environment for the graceful-degradation counterexample:
extraction succeeds, the Analyzer is down, the Embedder succeeds. -/
def envAnalyzerDown : Env :=
  ⟨fun _ => .ok ⟨"T", "B", "S"⟩,
   fun _ => .error "AnalyzerUnavailableError",
   fun _ => .error "AnalyzerUnavailableError",
   fun _ => .ok [1]⟩

/-- Concrete environment where every extraction fails (total-failure
batch). -/
def envAllFail : Env :=
  ⟨fun _ => .error "ExtractionError",
   fun _ => .error "AnalyzerUnavailableError",
   fun _ => .error "AnalyzerUnavailableError",
   fun _ => .error "EmbeddingError"⟩

/-- Concrete environment where everything succeeds except query
enhancement. -/
def envEnhanceDown : Env :=
  ⟨fun _ => .ok ⟨"T", "B", "S"⟩,
   fun _ => .ok ⟨"sum", ["politics"]⟩,
   fun _ => .error "AnalyzerUnavailableError",
   fun _ => .ok [1]⟩

/-- Concrete two-record vector index for the similarity witnesses. -/
def sampleIndex : List EmbeddingRecord :=
  [⟨"a", [1], "TA", "SA", "SrcA", []⟩, ⟨"b", [1], "TB", "SB", "SrcB", []⟩]

/-! Lemmas about the upload loop of `UploadPage.jsx`. -/

theorem applyOutcome_status (st : UploadState) (url u : String) (out : FetchOutcome) :
    (applyOutcome st url out).uploadStatus u =
      if u = url then some (statusFromOutcome out) else st.uploadStatus u := by
  cases out <;> rfl

theorem applyOutcome_counts (st : UploadState) (url : String) (out : FetchOutcome) :
    (applyOutcome st url out).processedCount + (applyOutcome st url out).failedUrls.length =
      st.processedCount + st.failedUrls.length + 1 := by
  cases out <;> simp [applyOutcome] <;> omega

theorem processNextUrl_status (f : String → FetchOutcome) :
    ∀ (urls : List String) (st : UploadState) (u : String),
      (processNextUrl f st urls).uploadStatus u =
        if u ∈ urls then some (statusFromOutcome (f u)) else st.uploadStatus u := by
  intro urls
  induction urls with
  | nil => intro st u; simp [processNextUrl]
  | cons h t ih =>
    intro st u
    simp only [processNextUrl]
    rw [ih, applyOutcome_status]
    by_cases hu : u = h
    · subst hu
      by_cases ht : u ∈ t <;> simp [ht]
    · by_cases ht : u ∈ t <;> simp [ht, hu]

theorem processNextUrl_counts (f : String → FetchOutcome) :
    ∀ (urls : List String) (st : UploadState),
      (processNextUrl f st urls).processedCount + (processNextUrl f st urls).failedUrls.length =
        st.processedCount + st.failedUrls.length + urls.length := by
  intro urls
  induction urls with
  | nil => intro st; simp [processNextUrl]
  | cons h t ih =>
    intro st
    simp only [processNextUrl]
    rw [ih]
    have := applyOutcome_counts st h (f h)
    simp only [List.length_cons]
    omega

/-- C2: for every batch of URLs and every assignment of per-URL fetch
outcomes, the upload loop of `UploadPage.jsx` processes each URL
independently: every URL of the batch ends with a recorded final status
that is a function of that URL's own outcome alone (so the failure of
any other URL, including an unreachable one, neither aborts nor rolls
back its processing), and every URL of the batch is counted exactly once
as processed or failed. -/
theorem c2_batch_fault_isolation (f : String → FetchOutcome) (urls : List String) (u : String)
    (hu : u ∈ urls) :
    (processNextUrl f initUpload urls).uploadStatus u = some (statusFromOutcome (f u)) ∧
    (processNextUrl f initUpload urls).processedCount +
      (processNextUrl f initUpload urls).failedUrls.length = urls.length := by
  constructor
  · rw [processNextUrl_status]
    simp [hu]
  · have := processNextUrl_counts f urls initUpload
    simpa [initUpload] using this

/-- Witness for C2: in a batch where URL "a" is unreachable and URL "b"
is valid, "b" still ends with a success status and both URLs are
accounted for. -/
theorem c2_batch_fault_isolation_witness :
    (processNextUrl sampleFetch initUpload ["a", "b"]).uploadStatus "b" =
        some UStatus.success ∧
    (processNextUrl sampleFetch initUpload ["a", "b"]).processedCount +
      (processNextUrl sampleFetch initUpload ["a", "b"]).failedUrls.length = 2 :=
  c2_batch_fault_isolation sampleFetch ["a", "b"] "b" (by decide)

/-! Lemmas about the relational schema model. -/

theorem applyUpdateRow_id (id : String) (v : ArticleValues) (t2 : Nat) (a : ArticleRow) :
    (applyUpdateRow id v t2 a).id = a.id := by
  unfold applyUpdateRow
  split <;> rfl

theorem dbInv_init : dbInv initDB := by
  refine ⟨?_, ?_, ?_⟩ <;> simp [initDB, namesUnique, assocUnique, noOrphans]

theorem dbInv_applyOp (st : DBState) (op : DBOp) (h : dbInv st) : dbInv (applyOp st op) := by
  obtain ⟨hn, ha, ho⟩ := h
  cases op with
  | insertArticle id v t =>
    simp only [applyOp]
    split
    · exact ⟨hn, ha, ho⟩
    · refine ⟨hn, ha, ?_⟩
      intro r hr
      obtain ⟨⟨a, haa, hid⟩, htp⟩ := ho r hr
      exact ⟨⟨a, List.mem_cons_of_mem _ haa, hid⟩, htp⟩
  | updateArticle id v t =>
    refine ⟨hn, ha, ?_⟩
    intro r hr
    obtain ⟨⟨a, haa, hid⟩, htp⟩ := ho r hr
    refine ⟨⟨applyUpdateRow id v (tick st t) a, ?_, ?_⟩, htp⟩
    · exact List.mem_map_of_mem _ haa
    · rw [applyUpdateRow_id]
      exact hid
  | deleteArticle id =>
    refine ⟨hn, List.Nodup.sublist (List.filter_sublist _) ha, ?_⟩
    intro r hr
    simp only [applyOp, List.mem_filter] at hr
    obtain ⟨hrmem, hrkeep⟩ := hr
    obtain ⟨⟨a, haa, hid⟩, htp⟩ := ho r hrmem
    refine ⟨⟨a, ?_, hid⟩, htp⟩
    show a ∈ st.articles.filter (fun a => !(a.id == id))
    rw [List.mem_filter]
    refine ⟨haa, ?_⟩
    simpa [hid] using hrkeep
  | insertTopic name =>
    simp only [applyOp]
    split
    · exact ⟨hn, ha, ho⟩
    · rename_i hc
      refine ⟨?_, ha, ?_⟩
      · simp only [namesUnique, List.map_cons, List.nodup_cons]
        refine ⟨?_, hn⟩
        simp only [List.any_eq_true, beq_iff_eq, not_exists, not_and] at hc
        simp only [List.mem_map, not_exists, not_and]
        intro tp htpmem heq
        exact hc tp htpmem heq
      · intro r hr
        obtain ⟨haw, ⟨tp, htpm, htpid⟩⟩ := ho r hr
        exact ⟨haw, ⟨tp, List.mem_cons_of_mem _ htpm, htpid⟩⟩
  | deleteTopic tid =>
    refine ⟨?_, List.Nodup.sublist (List.filter_sublist _) ha, ?_⟩
    · exact List.Nodup.sublist (List.Sublist.map _ (List.filter_sublist _)) hn
    · intro r hr
      simp only [applyOp, List.mem_filter] at hr
      obtain ⟨hrmem, hrkeep⟩ := hr
      obtain ⟨haw, ⟨tp, htpm, htpid⟩⟩ := ho r hrmem
      refine ⟨haw, ⟨tp, ?_, htpid⟩⟩
      show tp ∈ st.topics.filter (fun tp => !(tp.id == tid))
      rw [List.mem_filter]
      refine ⟨htpm, ?_⟩
      simpa [htpid] using hrkeep
  | insertArticleTopic aid tid =>
    simp only [applyOp]
    by_cases h1 : (st.article_topics.any fun r => r.article_id == aid && r.topic_id == tid) = true
    · rw [if_pos h1]
      exact ⟨hn, ha, ho⟩
    rw [if_neg h1]
    by_cases h2 : (!st.articles.any fun a => a.id == aid) = true
    · rw [if_pos h2]
      exact ⟨hn, ha, ho⟩
    rw [if_neg h2]
    by_cases h3 : (!st.topics.any fun tp => tp.id == tid) = true
    · rw [if_pos h3]
      exact ⟨hn, ha, ho⟩
    rw [if_neg h3]
    have h2b : ∃ a ∈ st.articles, a.id = aid := by
      simp only [Bool.not_eq_true, Bool.not_eq_false] at h2
      simpa [List.any_eq_true, beq_iff_eq] using h2
    have h3b : ∃ tp ∈ st.topics, tp.id = tid := by
      simp only [Bool.not_eq_true, Bool.not_eq_false] at h3
      simpa [List.any_eq_true, beq_iff_eq] using h3
    have h1b : (⟨aid, tid⟩ : ArticleTopicRow) ∉ st.article_topics := by
      intro hmem
      apply h1
      simp only [List.any_eq_true, Bool.and_eq_true, beq_iff_eq]
      exact ⟨⟨aid, tid⟩, hmem, rfl, rfl⟩
    refine ⟨hn, ?_, ?_⟩
    · show ((⟨aid, tid⟩ : ArticleTopicRow) :: st.article_topics).Nodup
      rw [List.nodup_cons]
      exact ⟨h1b, ha⟩
    · intro r hr
      rcases List.mem_cons.mp hr with hnew | hold
      · subst hnew
        obtain ⟨a, haa, hid⟩ := h2b
        obtain ⟨tp, htpm, htpid⟩ := h3b
        exact ⟨⟨a, haa, hid⟩, ⟨tp, htpm, htpid⟩⟩
      · obtain ⟨haw, htw⟩ := ho r hold
        exact ⟨haw, htw⟩
  | deleteArticleTopic aid tid =>
    refine ⟨hn, List.Nodup.sublist (List.filter_sublist _) ha, ?_⟩
    intro r hr
    simp only [applyOp, List.mem_filter] at hr
    exact ho r hr.1

theorem dbInv_foldl :
    ∀ (ops : List DBOp) (st : DBState), dbInv st → dbInv (ops.foldl applyOp st) := by
  intro ops
  induction ops with
  | nil => intro st h; simpa using h
  | cons op t ih => intro st h; exact ih _ (dbInv_applyOp st op h)

theorem dbInv_run (ops : List DBOp) : dbInv (runDB ops) :=
  dbInv_foldl ops initDB dbInv_init

/-- C7: after every sequence of statements against the schema of
`01-init.sql`, topic names are globally unique (the `unique_topic_name`
constraint) and association rows are unique per (article, topic) pair
(the composite primary key of `article_topics`): no statement can leave
a duplicate topic name or a duplicate association row in the database. -/
theorem c7_topic_and_association_uniqueness (ops : List DBOp) :
    ((runDB ops).topics.map (fun tp => tp.name)).Nodup ∧ (runDB ops).article_topics.Nodup :=
  ⟨(dbInv_run ops).1, (dbInv_run ops).2.1⟩

/-- C9: after every sequence of statements against the schema of
`01-init.sql`, every row of `article_topics` references an existing
`articles` row and an existing `topics` row: the foreign keys block
inserts of orphan rows and the `ON DELETE CASCADE` clauses remove the
association rows of every deleted article or topic. -/
theorem c9_no_orphan_associations (ops : List DBOp) (r : ArticleTopicRow)
    (hr : r ∈ (runDB ops).article_topics) :
    (∃ a ∈ (runDB ops).articles, a.id = r.article_id) ∧
    (∃ tp ∈ (runDB ops).topics, tp.id = r.topic_id) :=
  (dbInv_run ops).2.2 r hr

/-- Witness for C9: after inserting an article, a topic and their
association, the single association row references the existing article
and topic rows. -/
theorem c9_no_orphan_associations_witness :
    (∃ a ∈ (runDB sampleOps).articles, a.id = "a1") ∧
    (∃ tp ∈ (runDB sampleOps).topics, tp.id = 1) :=
  c9_no_orphan_associations sampleOps ⟨"a1", 1⟩ (by decide)

/-- C10: the claim states that every UPDATE of an `articles` row sets
`updated_at` to the current time via the `update_article_timestamp`
trigger. The intent of `01-init.sql` (its comments and lines 39-51)
matches the claim, but the `CREATE FUNCTION` statement delimits its body
with a lone dollar sign, which is not a valid PostgreSQL dollar-quote
delimiter, so the function and the trigger are never created and an
UPDATE leaves `updated_at` unchanged. Concretely: a row inserted at time
1 and updated at time 5 keeps `updated_at = 1` on the schema as actually
installed (first conjunct), whereas the trigger the script intended
would have set `updated_at = 5` while keeping `created_at = 1` (second
conjunct). -/
theorem c10_update_trigger_never_installed :
    ((updateArticleNoTrig (applyOp initDB (DBOp.insertArticle "a1" sampleValues 1))
        "a1" sampleValues 5).articles.map (fun a => (a.created_at, a.updated_at)) = [(1, 1)]) ∧
    ((applyOp (applyOp initDB (DBOp.insertArticle "a1" sampleValues 1))
        (DBOp.updateArticle "a1" sampleValues 5)).articles.map
          (fun a => (a.created_at, a.updated_at)) = [(1, 5)]) := by
  constructor <;> rfl

/-! Lemmas about the ingestion pipeline model. -/

theorem upsertBy_cons_hit {α : Type} (key : α → String) (x y : α) (l : List α)
    (h : key y = key x) : upsertBy key x (y :: l) = x :: l := by
  simp [upsertBy, h]

theorem mem_upsertBy {α : Type} (key : α → String) (x : α) (l : List α) :
    x ∈ upsertBy key x l := by
  induction l with
  | nil => simp [upsertBy]
  | cons y ys ih =>
    unfold upsertBy
    split
    · exact List.mem_cons_self _ _
    · exact List.mem_cons_of_mem _ ih

theorem ingest_of_extract_err (env : Env) (st : Stores) (u : String) (e : String)
    (h : env.extract u = .error e) : ingest env st u = st := by
  unfold ingest processUrl
  simp [h]

theorem ingest_metadata (env : Env) (st : Stores) (u : String) (ex : Extracted)
    (h : env.extract u = .ok ex) :
    (ingest env st u).metadata = upsertBy (fun a => a.id) (mkArticle env u ex) st.metadata := by
  unfold ingest processUrl
  simp only [h]
  cases he : env.embed ex.body_text <;> simp [he]

theorem ingest_vectors_embed_ok (env : Env) (st : Stores) (u : String) (ex : Extracted)
    (v : List Rat) (h : env.extract u = .ok ex) (he : env.embed ex.body_text = .ok v) :
    (ingest env st u).vectors =
      upsertBy (fun r => r.article_id) (mkRecord (mkArticle env u ex) v) st.vectors := by
  unfold ingest processUrl
  simp [h, he]

theorem ingest_vectors_embed_err (env : Env) (st : Stores) (u : String) (ex : Extracted)
    (e : String) (h : env.extract u = .ok ex) (he : env.embed ex.body_text = .error e) :
    (ingest env st u).vectors = st.vectors := by
  unfold ingest processUrl
  simp [h, he]

theorem processUrl_fst (env : Env) (st : Stores) (u : String) :
    (processUrl env st u).1 = urlOutcome env u := by
  unfold processUrl urlOutcome
  cases h : env.extract u with
  | error e => simp
  | ok ex => cases he : env.embed ex.body_text <;> simp [he, mkArticle]

theorem processBatch_fst (env : Env) :
    ∀ (urls : List String) (st : Stores),
      (processBatch env st urls).1 = urls.map (urlOutcome env) := by
  intro urls
  induction urls with
  | nil => intro st; rfl
  | cons u us ih =>
    intro st
    simp only [processBatch, List.map_cons]
    rw [processUrl_fst, ih]

theorem storedIdsOf_map_outcome (env : Env) :
    ∀ urls : List String,
      storedIdsOf (urls.map (urlOutcome env)) =
        (urls.filter (extractionOk env)).map (fun u => canonicalize u) := by
  intro urls
  induction urls with
  | nil => rfl
  | cons u us ih =>
    cases h : env.extract u with
    | error e =>
      have h1 : urlOutcome env u = .extraction_failed u e := by simp [urlOutcome, h]
      have h2 : extractionOk env u = false := by simp [extractionOk, h]
      simp only [List.map_cons, List.filter_cons, h1, h2, storedIdsOf, List.filterMap_cons]
      simpa [storedIdsOf] using ih
    | ok ex =>
      have h1 : urlOutcome env u = .stored (canonicalize u) := by simp [urlOutcome, h]
      have h2 : extractionOk env u = true := by simp [extractionOk, h]
      simp only [List.map_cons, List.filter_cons, h1, h2, storedIdsOf, List.filterMap_cons]
      simpa [storedIdsOf] using ih

theorem failuresOf_map_outcome (env : Env) :
    ∀ urls : List String,
      (failuresOf (urls.map (urlOutcome env))).map Prod.fst =
        urls.filter (fun u => !(extractionOk env u)) := by
  intro urls
  induction urls with
  | nil => rfl
  | cons u us ih =>
    cases h : env.extract u with
    | error e =>
      have h1 : urlOutcome env u = .extraction_failed u e := by simp [urlOutcome, h]
      have h2 : extractionOk env u = false := by simp [extractionOk, h]
      simp only [List.map_cons, List.filter_cons, h1, h2, failuresOf, List.filterMap_cons]
      simpa [failuresOf] using ih
    | ok ex =>
      have h1 : urlOutcome env u = .stored (canonicalize u) := by simp [urlOutcome, h]
      have h2 : extractionOk env u = true := by simp [extractionOk, h]
      simp only [List.map_cons, List.filter_cons, h1, h2, failuresOf, List.filterMap_cons]
      simpa [failuresOf] using ih

/-- C1: ingesting the same URL twice (the two runs made under possibly
different external-service behavior, and any concurrent interleaving
being serialized per identifier by the design, section 5) leaves exactly
one Article row, keyed by the canonicalization of the URL; at most one
Embedding Record exists and it carries that same key; and when the
second extraction succeeds, the single Article row carries the fields of
the second ingestion — the second run overwrites the mutable fields and
upserts the Embedding Record instead of adding rows. -/
theorem c1_ingestion_idempotent (env1 env2 : Env) (u : String) (ex1 : Extracted)
    (h1 : env1.extract u = .ok ex1) :
    (ingestTwice env1 env2 u).metadata.map (fun a => a.id) = [canonicalize u] ∧
    (ingestTwice env1 env2 u).vectors.length ≤ 1 ∧
    (∀ r ∈ (ingestTwice env1 env2 u).vectors, r.article_id = canonicalize u) ∧
    (∀ ex2, env2.extract u = .ok ex2 →
      (ingestTwice env1 env2 u).metadata = [mkArticle env2 u ex2]) := by
  have hm1 : (ingest env1 emptyStores u).metadata = [mkArticle env1 u ex1] := by
    rw [ingest_metadata env1 emptyStores u ex1 h1]
    rfl
  have hv1 : (ingest env1 emptyStores u).vectors = [] ∨
      ∃ rec : EmbeddingRecord,
        (ingest env1 emptyStores u).vectors = [rec] ∧ rec.article_id = canonicalize u := by
    cases he1 : env1.embed ex1.body_text with
    | error e1 =>
      left
      rw [ingest_vectors_embed_err env1 emptyStores u ex1 e1 h1 he1]
      rfl
    | ok v1 =>
      right
      refine ⟨mkRecord (mkArticle env1 u ex1) v1, ?_, rfl⟩
      rw [ingest_vectors_embed_ok env1 emptyStores u ex1 v1 h1 he1]
      rfl
  have hv2 : (ingestTwice env1 env2 u).vectors = [] ∨
      ∃ rec : EmbeddingRecord,
        (ingestTwice env1 env2 u).vectors = [rec] ∧ rec.article_id = canonicalize u := by
    cases h2 : env2.extract u with
    | error e2 =>
      unfold ingestTwice
      rw [ingest_of_extract_err env2 _ u e2 h2]
      exact hv1
    | ok ex2 =>
      cases he2 : env2.embed ex2.body_text with
      | error e =>
        unfold ingestTwice
        rw [ingest_vectors_embed_err env2 _ u ex2 e h2 he2]
        exact hv1
      | ok v2 =>
        right
        refine ⟨mkRecord (mkArticle env2 u ex2) v2, ?_, rfl⟩
        unfold ingestTwice
        rw [ingest_vectors_embed_ok env2 _ u ex2 v2 h2 he2]
        rcases hv1 with h | ⟨rec1, hrec1, hid1⟩
        · rw [h]
          rfl
        · rw [hrec1]
          exact upsertBy_cons_hit _ _ _ _ (by rw [hid1]; rfl)
  have hmeta : (∀ ex2, env2.extract u = .ok ex2 →
      (ingestTwice env1 env2 u).metadata = [mkArticle env2 u ex2]) ∧
      (ingestTwice env1 env2 u).metadata.map (fun a => a.id) = [canonicalize u] := by
    cases h2 : env2.extract u with
    | error e2 =>
      constructor
      · intro ex2 hok
        exact Except.noConfusion hok
      · have heq : ingestTwice env1 env2 u = ingest env1 emptyStores u := by
          unfold ingestTwice
          exact ingest_of_extract_err env2 _ u e2 h2
        rw [heq, hm1]
        rfl
    | ok ex2 =>
      have hm2 : (ingestTwice env1 env2 u).metadata = [mkArticle env2 u ex2] := by
        unfold ingestTwice
        rw [ingest_metadata env2 _ u ex2 h2, hm1]
        exact upsertBy_cons_hit _ _ _ _ rfl
      constructor
      · intro ex2a hok
        injection hok with hh
        rw [← hh]
        exact hm2
      · rw [hm2]
        rfl
  refine ⟨hmeta.2, ?_, ?_, hmeta.1⟩
  · rcases hv2 with h | ⟨rec, hrec, _⟩
    · rw [h]
      simp
    · rw [hrec]
      simp
  · intro r hr
    rcases hv2 with h | ⟨rec, hrec, hid⟩
    · rw [h] at hr
      exact absurd hr (List.not_mem_nil r)
    · rw [hrec, List.mem_singleton] at hr
      rw [hr]
      exact hid

/-- Witness for C1: ingesting "http://x" twice with the Analyzer down
leaves one Article row keyed "http://x" and at most one Embedding
Record. -/
theorem c1_ingestion_idempotent_witness :
    (ingestTwice envAnalyzerDown envAnalyzerDown "http://x").metadata.map (fun a => a.id) =
        ["http://x"] ∧
    (ingestTwice envAnalyzerDown envAnalyzerDown "http://x").vectors.length ≤ 1 := by
  have h := c1_ingestion_idempotent envAnalyzerDown envAnalyzerDown "http://x"
      ⟨"T", "B", "S"⟩ rfl
  exact ⟨by rw [h.1]; decide, h.2.1⟩

/-- C3 counterexample: the claim says an article whose analysis failed is
persisted metadata-only, but the pipeline described in section 4.5
computes the embedding from the body text regardless of the analysis
outcome, so with the Analyzer down and the Embedder up the article gets
an Embedding Record: at this concrete input the analysis fails yet the
vector store ends up with one record, refuting metadata-only. -/
theorem c3_metadata_only_counterexample :
    envAnalyzerDown.analyze "B" = .error "AnalyzerUnavailableError" ∧
    (processUrl envAnalyzerDown emptyStores "http://x").2.vectors.length = 1 := by
  exact ⟨rfl, rfl⟩

/-- C3 (amended): for every article text on which the Analyzer fails,
the store operation still persists the article — with empty summary and
empty topics — and returns its article identifier; analysis failure
never causes the URL's processing to abort (the embedding is still
computed from the body text, so an Embedding Record may also be
written). -/
theorem c3_analyzer_failure_graceful (env : Env) (st : Stores) (url : String) (ex : Extracted)
    (msg : String) (hx : env.extract url = .ok ex)
    (ha : env.analyze ex.body_text = .error msg) :
    (processUrl env st url).1 = .stored (canonicalize url) ∧
    (⟨canonicalize url, url, ex.title, "", ex.source, []⟩ : Article) ∈
      (processUrl env st url).2.metadata := by
  have hart : mkArticle env url ex = ⟨canonicalize url, url, ex.title, "", ex.source, []⟩ := by
    unfold mkArticle analysisOrEmpty
    rw [ha]
  constructor
  · rw [processUrl_fst]
    simp [urlOutcome, hx]
  · rw [← hart]
    show mkArticle env url ex ∈ (ingest env st url).metadata
    rw [ingest_metadata env st url ex hx]
    exact mem_upsertBy _ _ _

/-- Witness for C3 (amended): with the Analyzer down, processing
"http://x" still stores the article with empty summary and topics and
returns its identifier. -/
theorem c3_analyzer_failure_graceful_witness :
    (processUrl envAnalyzerDown emptyStores "http://x").1 = .stored "http://x" ∧
    (⟨"http://x", "http://x", "T", "", "S", []⟩ : Article) ∈
      (processUrl envAnalyzerDown emptyStores "http://x").2.metadata := by
  have h := c3_analyzer_failure_graceful envAnalyzerDown emptyStores "http://x"
      ⟨"T", "B", "S"⟩ "AnalyzerUnavailableError" rfl rfl
  exact ⟨h.1, h.2⟩

/-- C4: every batch `store` call returns HTTP 200 (a 2xx success) with a
status list of the same length as the input that distinguishes succeeded
URLs (a stored identifier) from failed ones (the URL with its failure
reason); a batch in which every URL fails still yields the 200 response,
now carrying an all-failed status list. -/
theorem c4_store_http_success_with_status_list (env : Env) (st : Stores) (urls : List String) :
    (storeEndpoint env st urls).status_code = 200 ∧
    (storeEndpoint env st urls).url_statuses.length = urls.length ∧
    (∀ s ∈ (storeEndpoint env st urls).url_statuses,
      (∃ i, s = UrlStatus.stored i) ∨ ∃ w m, s = UrlStatus.extraction_failed w m) ∧
    ((∀ w ∈ urls, ∃ e, env.extract w = .error e) →
      ∀ s ∈ (storeEndpoint env st urls).url_statuses,
        ∃ w m, s = UrlStatus.extraction_failed w m) := by
  have hb : (storeEndpoint env st urls).url_statuses = urls.map (urlOutcome env) :=
    processBatch_fst env urls st
  refine ⟨rfl, ?_, ?_, ?_⟩
  · rw [hb, List.length_map]
  · intro s hs
    cases s with
    | stored i => exact Or.inl ⟨i, rfl⟩
    | extraction_failed w m => exact Or.inr ⟨w, m, rfl⟩
  · intro hall s hs
    rw [hb, List.mem_map] at hs
    obtain ⟨w, hw, rfl⟩ := hs
    obtain ⟨e, he⟩ := hall w hw
    exact ⟨w, e, by simp [urlOutcome, he]⟩

/-- Witness for C4: a two-URL batch in which every extraction fails still
gets HTTP 200 and a status list of length two whose entries are all
failures. -/
theorem c4_store_http_success_with_status_list_witness :
    (storeEndpoint envAllFail emptyStores ["a", "b"]).status_code = 200 ∧
    (storeEndpoint envAllFail emptyStores ["a", "b"]).url_statuses.length = 2 ∧
    ∀ s ∈ (storeEndpoint envAllFail emptyStores ["a", "b"]).url_statuses,
      ∃ w m, s = UrlStatus.extraction_failed w m := by
  obtain ⟨hsc, hlen, _, hfail⟩ :=
    c4_store_http_success_with_status_list envAllFail emptyStores ["a", "b"]
  exact ⟨hsc, hlen, hfail (fun w _ => ⟨"ExtractionError", rfl⟩)⟩

/-- C5: the identifiers a batch `store` call returns are those of exactly
the URLs that reached the `stored` (metadata-persisted) state, in input
order, while the failed URLs appear — also in input order — only in the
separate failure list, never interleaved among the identifiers. -/
theorem c5_stored_ids_exact_and_ordered (env : Env) (st : Stores) (urls : List String) :
    (storeEndpoint env st urls).stored_ids =
      (urls.filter (extractionOk env)).map (fun u => canonicalize u) ∧
    (failuresOf (storeEndpoint env st urls).url_statuses).map Prod.fst =
      urls.filter (fun u => !(extractionOk env u)) := by
  constructor
  · show storedIdsOf (processBatch env st urls).1 = _
    rw [processBatch_fst, storedIdsOf_map_outcome]
  · show (failuresOf (processBatch env st urls).1).map Prod.fst = _
    rw [processBatch_fst, failuresOf_map_outcome]

/-! Lemmas about the search orchestrator model. -/

theorem vectorQuery_sorted (index : List EmbeddingRecord) (v : List Rat) (limit : Nat) :
    List.Sorted scoreOrder (vectorQuery index v limit) := by
  unfold vectorQuery
  exact List.Pairwise.sublist (List.take_sublist _ _) (List.sorted_insertionSort scoreOrder _)

theorem mem_vectorQuery (index : List EmbeddingRecord) (v : List Rat) (limit : Nat)
    (s : Scored) (hs : s ∈ vectorQuery index v limit) : s.entry ∈ index := by
  unfold vectorQuery at hs
  have h1 : s ∈ List.insertionSort scoreOrder (index.map (fun e => ⟨e, dot v e.vector⟩)) :=
    List.mem_of_mem_take hs
  have h2 := (List.perm_insertionSort scoreOrder _).mem_iff.mp h1
  rw [List.mem_map] at h2
  obtain ⟨e, he, rfl⟩ := h2
  exact he

/-- C6: when query enhancement is requested and the Analyzer's
`enhance_query` fails, `search` silently falls back to embedding the
original query text — the call behaves exactly as with enhancement off —
and (the Embedder being reachable) still returns a ranked result list,
sorted by similarity score, rather than an error. -/
theorem c6_enhance_failure_falls_back (env : Env) (index : List EmbeddingRecord) (q : String)
    (limit : Nat) (msg : String) (v : List Rat)
    (he : env.enhance_query q = .error msg) (hv : env.embed q = .ok v) :
    search env index q true limit = .ok (vectorQuery index v limit) ∧
    search env index q true limit = search env index q false limit ∧
    List.Sorted scoreOrder (vectorQuery index v limit) := by
  have h1 : search env index q true limit = .ok (vectorQuery index v limit) := by
    unfold search
    simp [he, hv]
  have h2 : search env index q false limit = .ok (vectorQuery index v limit) := by
    unfold search
    simp [hv]
  exact ⟨h1, h1.trans h2.symm, vectorQuery_sorted index v limit⟩

/-- Witness for C6: with the Analyzer down but the Embedder up, an
enhanced search over the sample index returns the ranked list and agrees
with the unenhanced search. -/
theorem c6_enhance_failure_falls_back_witness :
    search envEnhanceDown sampleIndex "q" true 10 = .ok (vectorQuery sampleIndex [1] 10) ∧
    search envEnhanceDown sampleIndex "q" true 10 =
      search envEnhanceDown sampleIndex "q" false 10 ∧
    List.Sorted scoreOrder (vectorQuery sampleIndex [1] 10) :=
  c6_enhance_failure_falls_back envEnhanceDown sampleIndex "q" 10
    "AnalyzerUnavailableError" [1] rfl rfl

/-- C8: `find_similar` fails with NotFoundError whenever no Embedding
Record exists for the requested article, and when one exists the result
list never contains the source article itself — it is the
similarity-ranked list of its neighbors. -/
theorem c8_find_similar_not_found_and_excludes_self (index : List EmbeddingRecord)
    (aid : String) (limit : Nat) :
    ((∀ e ∈ index, ¬ e.article_id = aid) →
      find_similar index aid limit = .error SimError.NotFoundError) ∧
    (∀ s ∈ okResults (find_similar index aid limit), ¬ s.entry.article_id = aid) ∧
    List.Sorted scoreOrder (okResults (find_similar index aid limit)) := by
  refine ⟨?_, ?_, ?_⟩
  · intro h
    unfold find_similar
    have hnone : index.find? (fun e => e.article_id == aid) = none := by
      rw [List.find?_eq_none]
      intro e he
      simp [h e he]
    rw [hnone]
  · intro s hs
    unfold find_similar at hs
    cases hf : index.find? (fun e => e.article_id == aid) with
    | none =>
      rw [hf] at hs
      simp [okResults] at hs
    | some src =>
      rw [hf] at hs
      simp only [okResults] at hs
      have hmem := mem_vectorQuery _ _ _ _ hs
      rw [List.mem_filter] at hmem
      have hkeep := hmem.2
      simp only [Bool.not_eq_true', beq_eq_false_iff_ne, ne_eq] at hkeep
      exact hkeep
  · unfold find_similar
    cases hf : index.find? (fun e => e.article_id == aid) with
    | none => simp [okResults]
    | some src =>
      simp only [okResults]
      exact vectorQuery_sorted _ _ _

/-- Witness for C8: on the sample index, asking for an article that was
never embedded fails with NotFoundError, and the neighbor list of the
embedded article "a" never contains "a" itself. -/
theorem c8_find_similar_witness :
    find_similar sampleIndex "zzz" 2 = .error SimError.NotFoundError ∧
    ∀ s ∈ okResults (find_similar sampleIndex "a" 2), ¬ s.entry.article_id = "a" :=
  ⟨(c8_find_similar_not_found_and_excludes_self sampleIndex "zzz" 2).1 (by decide),
   (c8_find_similar_not_found_and_excludes_self sampleIndex "a" 2).2.1⟩

end NewsGenAI
